import Mathlib

/-!
Verification of the labelme-to-YOLO dataset conversion engine
(`src/converter/yolo_converter.py`) against its natural-language
specification.  The engine is embedded shallowly: pure geometry and
string formatting become Lean functions over `ℚ`; the filesystem is
abstracted into parsed file contents carried by each image/annotation
pair together with explicit per-pair copy/write failure flags, and the
label writes performed by a run are collected as an explicit event list.
-/

namespace YoloConv

/-- One labelme shape, as read from an input JSON file: the
`shape_type` string, the `label` string (`shape.get('label','')`, so a
missing label is the empty string), and the list of 2-D points. -/
structure Shape where
  shape_type : String
  label : String
  points : List (ℚ × ℚ)
deriving DecidableEq, Repr

/-- A parsed input JSON file.  `imageWidth`/`imageHeight` are `none`
when the key is absent (Python raises `KeyError` on access in
`_convert_single_pair`, while `_collect_class_info` never touches
them); `shapes` is `none` when the `shapes` key is absent, in which
case `data.get('shapes', [])` yields the empty list. -/
structure RawFile where
  imageWidth : Option ℚ
  imageHeight : Option ℚ
  shapes : Option (List Shape)
deriving DecidableEq, Repr

/-- One image/annotation pair as consumed by the engine.  `parsed` is
`none` when `json.load` fails on the annotation file (malformed JSON):
that raises in both the collection scan and the conversion step.
`copyFail`/`writeFail` inject a failure of `shutil.copy2` resp. of the
label-file write for this pair. -/
structure PairInput where
  img : String
  jsonName : String
  parsed : Option RawFile
  copyFail : Bool
  writeFail : Bool
deriving DecidableEq, Repr

/-- The geometric transform of `_convert_single_pair` lines 243-246:
`center_x = (x1+x2)/2/W`, `center_y = (y1+y2)/2/H`,
`width = |x2-x1|/W`, `height = |y2-y1|/H`. -/
def toYoloBox (W H x1 y1 x2 y2 : ℚ) : ℚ × ℚ × ℚ × ℚ :=
  ((x1 + x2) / 2 / W, (y1 + y2) / 2 / H, |x2 - x1| / W, |y2 - y1| / H)

/-- Fixed six-decimal rendering of a rational, modelling Python's
`f"{v:.6f}"` (round to the nearest multiple of 10⁻⁶, then print the
integer part, a dot, and six fractional digits). -/
def fmt6 (q : ℚ) : String :=
  let n : ℤ := round (q * 1000000)
  let sign := if n < 0 then "-" else ""
  let m := n.natAbs
  let ip := m / 1000000
  let fp := m % 1000000
  let fs := toString fp
  sign ++ toString ip ++ "." ++ String.mk (List.replicate (6 - fs.length) '0') ++ fs

/-- One label-file line, `f"{class_id} {cx:.6f} {cy:.6f} {w:.6f} {h:.6f}"`
(line 249 of the source). -/
def yoloLine (cid : Nat) (cx cy w h : ℚ) : String :=
  toString cid ++ " " ++ fmt6 cx ++ " " ++ fmt6 cy ++ " " ++ fmt6 w ++ " " ++ fmt6 h

/-- The byte content of a label file: every line is written followed by
a single newline (lines 267-269 of the source); zero lines give the
empty file. -/
def labelFileContent (lines : List String) : String :=
  String.join (lines.map (fun l => l ++ "\n"))

/-- Python `str.strip()`: remove leading and trailing whitespace. -/
def stripStr (s : String) : String :=
  String.mk (((s.toList.dropWhile fun c => c.isWhitespace).reverse.dropWhile
    fun c => c.isWhitespace).reverse)

/-- The labels one parsed annotation file contributes to the class
vocabulary (`_collect_class_info` lines 144-148): for each shape with
`shape_type == 'rectangle'` whose stripped label is non-empty, the
stripped label. -/
def trimmedLabels (raw : RawFile) : List String :=
  (raw.shapes.getD []).filterMap (fun s =>
    if s.shape_type = "rectangle" ∧ stripStr s.label ≠ "" then some (stripStr s.label) else none)

/-- The labels one pair contributes: a pair whose annotation JSON fails
to parse contributes nothing (the exception is caught and only an error
message is recorded). -/
def pairLabels (p : PairInput) : List String :=
  match p.parsed with
  | none => []
  | some raw => trimmedLabels raw

/-- The set `all_classes` accumulated by `_collect_class_info` over the
whole pair list: one representative per distinct label (the set is
consumed only through `sorted`, so any duplicate-free list represents
it). -/
def collectClasses (pairs : List PairInput) : List String :=
  (pairs.flatMap pairLabels).dedup

/-- The error messages `_collect_class_info` appends to
`self.conversion_stats['errors']`: one per pair whose annotation fails
to parse, prefixed with `クラス情報収集エラー` and the JSON filename. -/
def collectErrs (pairs : List PairInput) : List String :=
  pairs.filterMap (fun p =>
    match p.parsed with
    | none => some ("クラス情報収集エラー " ++ p.jsonName ++ ": json parse error")
    | some _ => none)

/-- `sorted_classes = sorted(list(all_classes))` (line 154):
lexicographically ascending. -/
def sortedClasses (pairs : List PairInput) : List String :=
  List.insertionSort (· ≤ ·) (collectClasses pairs)

/-- Python's `enumerate` starting at `i`: each element paired with its
position. -/
def indexedFrom : List String → Nat → List (String × Nat)
  | [], _ => []
  | c :: rest, i => (c, i) :: indexedFrom rest (i + 1)

/-- `self.class_mapping = {cls: idx for idx, cls in
enumerate(sorted_classes)}` (line 155), kept as an association list in
key order (the keys are distinct, so the dict is exactly this list). -/
def classMapping (pairs : List PairInput) : List (String × Nat) :=
  indexedFrom (sortedClasses pairs) 0

/-- Dictionary lookup in the class mapping (`label in self.class_mapping`
/ `self.class_mapping[label]`). -/
def mapLookup (m : List (String × Nat)) (k : String) : Option Nat :=
  (m.find? (fun kv => kv.1 == k)).map (·.2)

/-- `_split_train_val`: the list is shuffled (`random.shuffle`, modelled
by passing the shuffled order explicitly) and sliced at
`split_idx = int(len(shuffled) * ratio)`; Python's `int()` truncates
toward zero, which for the nonnegative product equals the floor. -/
def splitTrainVal (shuffled : List PairInput) (r : ℚ) : List PairInput × List PairInput :=
  let splitIdx := (⌊r * (shuffled.length : ℚ)⌋).toNat
  (shuffled.take splitIdx, shuffled.drop splitIdx)

/-- `defaultdict(int)` increment, `class_counts[label] += 1`, on an
association list: an existing key's count is bumped in place, a new key
is appended with count 1 (matching dict insertion order). -/
def bump : List (String × Nat) → String → List (String × Nat)
  | [], k => [(k, 1)]
  | (k0, n) :: rest, k =>
    if k0 = k then (k0, n + 1) :: rest else (k0, n) :: bump rest k

/-- Sum of all per-class counters. -/
def countsTotal (cc : List (String × Nat)) : Nat :=
  (cc.map Prod.snd).sum

/-- The annotation-conversion loop of `_convert_single_pair`
(lines 232-253), processing the shapes in order with accumulators for
the label lines, the count, and the per-class counters.  For each
rectangle shape whose stripped label is in the class mapping it reads
`points[0]` and `points[1]` (fewer than two points raise an
`IndexError`, aborting the pair while keeping the counters bumped so
far), computes the normalized box, appends the formatted line, counts
the annotation, and bumps the label's counter.  Other shapes are
silently skipped.  The first component is `none` exactly on the index
error. -/
def processShapes (mapping : List (String × Nat)) (W H : ℚ) :
    List Shape → List String → Nat → List (String × Nat) →
    Option (List String × Nat) × List (String × Nat)
  | [], lines, cnt, cc => (some (lines, cnt), cc)
  | s :: rest, lines, cnt, cc =>
    if s.shape_type = "rectangle" then
      match mapLookup mapping (stripStr s.label) with
      | some cid =>
        match s.points with
        | (x1, y1) :: (x2, y2) :: _ =>
          let b := toYoloBox W H x1 y1 x2 y2
          processShapes mapping W H rest
            (lines ++ [yoloLine cid b.1 b.2.1 b.2.2.1 b.2.2.2]) (cnt + 1)
            (bump cc (stripStr s.label))
        | _ => (none, cc)
      | none => processShapes mapping W H rest lines cnt cc
    else processShapes mapping W H rest lines cnt cc

/-- Outcome of `_convert_single_pair` for one pair as observed by
`_convert_split`: success flag, annotation count, the message of the
exception raised (if any), and the label-file lines actually written
(present exactly when the write completed). -/
structure PairResult where
  success : Bool
  annCount : Nat
  errMsg : Option String
  labelLines : Option (List String)
deriving DecidableEq, Repr

/-- `_convert_single_pair` (lines 206-275): load the JSON (a parse
failure raises), read `imageWidth` and `imageHeight` (a missing key
raises `KeyError`), run the shape loop, then copy the image (when
enabled) and write the label file; a copy or write failure raises
AFTER the per-class counters were already bumped by the loop.  A raised
exception is modelled as a failed `PairResult` carrying the message
that `_convert_split` records (`f"{img_file}: {e}"`).  The second
component is the updated counter list. -/
def convertSinglePair (mapping : List (String × Nat)) (ci : Bool) (p : PairInput)
    (cc : List (String × Nat)) : PairResult × List (String × Nat) :=
  match p.parsed with
  | none => (⟨false, 0, some (p.img ++ ": json parse error"), none⟩, cc)
  | some raw =>
    match raw.imageWidth with
    | none => (⟨false, 0, some (p.img ++ ": KeyError imageWidth"), none⟩, cc)
    | some W =>
      match raw.imageHeight with
      | none => (⟨false, 0, some (p.img ++ ": KeyError imageHeight"), none⟩, cc)
      | some H =>
        match processShapes mapping W H (raw.shapes.getD []) [] 0 cc with
        | (none, cc2) => (⟨false, 0, some (p.img ++ ": IndexError"), none⟩, cc2)
        | (some (lines, cnt), cc2) =>
          if ci && p.copyFail then
            (⟨false, 0, some (p.img ++ ": copy failed"), none⟩, cc2)
          else if p.writeFail then
            (⟨false, 0, some (p.img ++ ": write failed"), none⟩, cc2)
          else
            (⟨true, cnt, none, some lines⟩, cc2)

/-- The `PairResult` of a pair, which is independent of the counter
accumulator passed in (only the counters themselves depend on it). -/
def pairOutcome (mapping : List (String × Nat)) (ci : Bool) (p : PairInput) : PairResult :=
  (convertSinglePair mapping ci p []).1

/-- The error message `_convert_split` records for a pair, when its
conversion fails. -/
def failMsg (mapping : List (String × Nat)) (ci : Bool) (p : PairInput) : Option String :=
  if (pairOutcome mapping ci p).success then none
  else some ((pairOutcome mapping ci p).errMsg.getD "")

/-- Python `os.path.splitext(f)[0]` for an ordinary filename: the part
before the last dot, or the whole name when there is no dot. -/
def stemOf (f : String) : String :=
  let cs := f.toList
  match cs.reverse.indexOf? '.' with
  | none => f
  | some i => String.mk (cs.take (cs.length - 1 - i))

/-- Destination label path `labels/<split>/<stem>.txt`
(lines 264-265). -/
def labelPath (sp img : String) : String :=
  "labels/" ++ sp ++ "/" ++ stemOf img ++ ".txt"

/-- Per-split statistics accumulated by `_convert_split`. -/
structure SplitStats where
  converted : Nat
  skipped : Nat
  anns : Nat
  errors : List String
deriving DecidableEq, Repr

/-- `_convert_split` (lines 170-204): convert the pairs in order,
counting successes and skips, summing annotation counts, and
collecting the error messages of failed pairs; additionally returns
the final per-class counters and the label-write events
`(path, content)` in the order they were performed. -/
def convertSplit (mapping : List (String × Nat)) (ci : Bool) (sp : String) :
    List PairInput → List (String × Nat) →
    SplitStats × List (String × Nat) × List (String × String)
  | [], cc => (⟨0, 0, 0, []⟩, cc, [])
  | p :: rest, cc =>
    let r1 := convertSinglePair mapping ci p cc
    let r2 := convertSplit mapping ci sp rest r1.2
    if r1.1.success then
      (⟨r2.1.converted + 1, r2.1.skipped, r2.1.anns + r1.1.annCount, r2.1.errors⟩, r2.2.1,
        (labelPath sp p.img, labelFileContent (r1.1.labelLines.getD [])) :: r2.2.2)
    else
      (⟨r2.1.converted, r2.1.skipped + 1, r2.1.anns,
        (r1.1.errMsg.getD "") :: r2.1.errors⟩, r2.2.1, r2.2.2)

/-- The summary returned by `_generate_summary` (lines 318-344),
together with the class mapping and per-class counters it embeds.  Its
error list is `train_stats['errors'] + val_stats['errors']`; the
collection-scan errors held in `conversion_stats['errors']` are not
part of it. -/
structure Summary where
  converted : Nat
  skipped : Nat
  totalAnns : Nat
  trainCount : Nat
  valCount : Nat
  numClasses : Nat
  classCounts : List (String × Nat)
  mapping : List (String × Nat)
  errors : List String
deriving DecidableEq, Repr

/-- `convert_dataset` (lines 30-87) with the filesystem abstracted:
`inputExists` models the existence check on the input folder, `pairs`
is the pair list produced by `_get_image_json_pairs`, and `shuffled`
is the order `random.shuffle` produced.  Raised structural errors
become `Except.error`; the success value carries the summary and the
label-write events of both splits, in order. -/
def convertDataset (inputExists : Bool) (pairs shuffled : List PairInput)
    (r : ℚ) (ci : Bool) : Except String (Summary × List (String × String)) :=
  if !inputExists then .error "入力フォルダが見つかりません"
  else if pairs.isEmpty then .error "有効な画像とJSONのペアが見つかりません"
  else
    let mapping := classMapping pairs
    let tv := splitTrainVal shuffled r
    let tr := convertSplit mapping ci "train" tv.1 []
    let vr := convertSplit mapping ci "val" tv.2 tr.2.1
    .ok ({ converted := tr.1.converted + vr.1.converted
           skipped := tr.1.skipped + vr.1.skipped
           totalAnns := tr.1.anns + vr.1.anns
           trainCount := tr.1.converted
           valCount := vr.1.converted
           numClasses := (classMapping pairs).length
           classCounts := vr.2.1
           mapping := classMapping pairs
           errors := tr.1.errors ++ vr.1.errors }, tr.2.2 ++ vr.2.2)

/-- The image extensions accepted by `_get_image_json_pairs`
(line 119). -/
def imageExts : List String := [".jpg", ".jpeg", ".png", ".bmp", ".tiff", ".webp"]

/-- Python `str.lower()`, character by character. -/
def lowerStr (s : String) : String :=
  String.mk (s.toList.map Char.toLower)

/-- Python `str.endswith(t)`: `t` is a suffix of `s`. -/
def strEndsWith (s t : String) : Bool :=
  t.toList.isSuffixOf s.toList

/-- `f.lower().endswith(image_extensions)` (line 122). -/
def isImageFile (f : String) : Bool :=
  imageExts.any (fun e => strEndsWith (lowerStr f) e)

/-- `_get_image_json_pairs` (lines 114-131): keep the files that carry
an image extension, in listing order, and pair each with
`<stem>.json` when that name appears among the listed files. -/
def getImageJsonPairs (allFiles : List String) : List (String × String) :=
  (allFiles.filter isImageFile).filterMap (fun img =>
    let jsonName := stemOf img ++ ".json"
    if allFiles.contains jsonName then some (img, jsonName) else none)

/-- Apply one write event to a store of file contents keyed by path: an
existing entry is overwritten in place, a new path is appended. -/
def upsert : List (String × String) → String × String → List (String × String)
  | [], w => [w]
  | (p0, c0) :: rest, w =>
    if p0 = w.1 then (p0, w.2) :: rest else (p0, c0) :: upsert rest w

/-- The file store left by performing a sequence of writes in order:
a later write to the same path overwrites the earlier content. -/
def applyWrites (ws : List (String × String)) : List (String × String) :=
  ws.foldl upsert []

/-- The required items checked by `validate_yolo_dataset`
(lines 357-363). -/
def requiredItems : List String :=
  ["images/train", "images/val", "labels/train", "labels/val", "dataset.yaml"]

/-- Result structure of `validate_yolo_dataset`. -/
structure ValidationResult where
  valid : Bool
  errors : List String
  warnings : List String
  stats : List (String × Nat)
deriving DecidableEq, Repr

/-- `validate_yolo_dataset` (lines 346-392) over an abstract output
tree: `ex` tells whether a path exists below the output folder, `cnt`
gives `len(os.listdir(...))` for a subdirectory.  One error is
appended per missing required item, in checking order; statistics and
mismatch warnings are produced only when every item was present.  The
embedding is a total function: the source communicates all failure
through the returned structure and never raises. -/
def validateYoloDataset (ex : String → Bool) (cnt : String → Nat) : ValidationResult :=
  let missing := requiredItems.filter (fun i => !(ex i))
  if missing.isEmpty then
    let ti := cnt "images/train"
    let vi := cnt "images/val"
    let tl := cnt "labels/train"
    let vl := cnt "labels/val"
    let w1 : List String :=
      if ti ≠ tl then
        ["訓練データの画像数とラベル数が不一致: " ++ toString ti ++ " vs " ++ toString tl]
      else []
    let w2 : List String :=
      if vi ≠ vl then
        ["検証データの画像数とラベル数が不一致: " ++ toString vi ++ " vs " ++ toString vl]
      else []
    ⟨true, [], w1 ++ w2,
      [("訓練画像数", ti), ("検証画像数", vi), ("訓練ラベル数", tl), ("検証ラベル数", vl)]⟩
  else
    ⟨false, missing.map (fun i => "必須項目が見つかりません: " ++ i), [], []⟩

/-- A concrete pair whose annotation parses but contains no shapes. -/
def emptyShapesPair : PairInput :=
  ⟨"e.jpg", "e.json", some ⟨some 10, some 10, some []⟩, false, false⟩

/-- A concrete pair whose annotation JSON is malformed. -/
def badJsonPair : PairInput := ⟨"b.jpg", "b.json", none, false, false⟩

/-- A concrete well-formed pair with one labelled rectangle. -/
def dogPair : PairInput :=
  ⟨"a.jpg", "a.json",
    some ⟨some 10, some 10, some [⟨"rectangle", "dog", [(1, 1), (3, 3)]⟩]⟩, false, false⟩

/-- The same annotation content as `dogPair`, under an image file that
shares the stem `a` but carries the extension `.png`. -/
def dogPairPng : PairInput :=
  ⟨"a.png", "a.json",
    some ⟨some 10, some 10, some [⟨"rectangle", "dog", [(1, 1), (3, 3)]⟩]⟩, false, false⟩

/-- Like `dogPair`, but its label-file write fails. -/
def writeFailPair : PairInput :=
  ⟨"a.jpg", "a.json",
    some ⟨some 10, some 10, some [⟨"rectangle", "dog", [(1, 1), (3, 3)]⟩]⟩, false, true⟩

/-- A pair with an empty shape list whose label-file write fails. -/
def emptyWriteFailPair : PairInput :=
  ⟨"e.jpg", "e.json", some ⟨some 10, some 10, some []⟩, false, true⟩

end YoloConv

namespace YoloConv

/-- Sorting with `insertionSort` on `(· ≤ ·)` maps permuted
duplicate-free lists to the same sorted list. -/
theorem insertionSort_eq_of_perm {l1 l2 : List String} (h : l1.Perm l2) :
    List.insertionSort (· ≤ ·) l1 = List.insertionSort (· ≤ ·) l2 := by
  have hs1 : List.Sorted (· ≤ ·) (List.insertionSort (· ≤ ·) l1) :=
    List.sorted_insertionSort _ l1
  have hs2 : List.Sorted (· ≤ ·) (List.insertionSort (· ≤ ·) l2) :=
    List.sorted_insertionSort _ l2
  exact List.eq_of_perm_of_sorted
    ((List.perm_insertionSort _ l1).trans (h.trans (List.perm_insertionSort _ l2).symm))
    hs1 hs2

/-- The keys of `indexedFrom l i` are `l` itself. -/
theorem indexedFrom_map_fst (l : List String) (i : Nat) :
    (indexedFrom l i).map Prod.fst = l := by
  induction l generalizing i with
  | nil => rfl
  | cons c rest ih => simp [indexedFrom, ih]

/-- The values of `indexedFrom l i` are the `l.length` consecutive
integers starting at `i`. -/
theorem indexedFrom_map_snd (l : List String) (i : Nat) :
    (indexedFrom l i).map Prod.snd = List.range' i l.length := by
  induction l generalizing i with
  | nil => rfl
  | cons c rest ih => simp [indexedFrom, List.range', ih]

/-- Claim C1: for every rectangle with corners `(x1,y1)`, `(x2,y2)` and
image size `W×H` with `W>0`, `H>0`, the converted box has
`width = |x2-x1|/W`, `height = |y2-y1|/H`, `center_x = (x1+x2)/2/W`,
`center_y = (y1+y2)/2/H`, and swapping the two corner points leaves the
converted box unchanged. -/
theorem c1_rectangle_transform (W H x1 y1 x2 y2 : ℚ) (hW : 0 < W) (hH : 0 < H) :
    (toYoloBox W H x1 y1 x2 y2).2.2.1 = |x2 - x1| / W ∧
    (toYoloBox W H x1 y1 x2 y2).2.2.2 = |y2 - y1| / H ∧
    (toYoloBox W H x1 y1 x2 y2).1 = (x1 + x2) / 2 / W ∧
    (toYoloBox W H x1 y1 x2 y2).2.1 = (y1 + y2) / 2 / H ∧
    toYoloBox W H x1 y1 x2 y2 = toYoloBox W H x2 y2 x1 y1 := by
  refine ⟨rfl, rfl, rfl, rfl, ?_⟩
  simp only [toYoloBox, Prod.mk.injEq]
  constructor
  · ring_nf
  constructor
  · ring_nf
  constructor
  · rw [abs_sub_comm]
  · rw [abs_sub_comm]

/-- Witness for C1 at a concrete input. -/
theorem c1_rectangle_transform_witness :
    (toYoloBox 100 50 10 20 30 40).2.2.1 = |(30:ℚ) - 10| / 100 ∧
    toYoloBox 100 50 10 20 30 40 = toYoloBox 100 50 30 40 10 20 := by
  have h := c1_rectangle_transform 100 50 10 20 30 40 (by norm_num) (by norm_num)
  exact ⟨h.1, h.2.2.2.2⟩

/-- Claim C8: whenever both corners lie inside `[0,W]×[0,H]` (with
`W,H > 0`), the computed center coordinates lie in `[0,1]`; and the
transform applies the same unclamped formula to out-of-range corners,
so out-of-range inputs propagate to normalized values outside `[0,1]`
(witnessed by corners `(12,12),(14,14)` on a `10×10` image, whose
center is `13/10 > 1` in both coordinates). -/
theorem c8_center_bounds_unclamped :
    (∀ W H x1 y1 x2 y2 : ℚ, 0 < W → 0 < H →
      0 ≤ x1 → x1 ≤ W → 0 ≤ x2 → x2 ≤ W →
      0 ≤ y1 → y1 ≤ H → 0 ≤ y2 → y2 ≤ H →
      (0 ≤ (toYoloBox W H x1 y1 x2 y2).1 ∧ (toYoloBox W H x1 y1 x2 y2).1 ≤ 1) ∧
      (0 ≤ (toYoloBox W H x1 y1 x2 y2).2.1 ∧ (toYoloBox W H x1 y1 x2 y2).2.1 ≤ 1)) ∧
    (∀ W H x1 y1 x2 y2 : ℚ, (toYoloBox W H x1 y1 x2 y2).1 = (x1 + x2) / 2 / W ∧
      (toYoloBox W H x1 y1 x2 y2).2.1 = (y1 + y2) / 2 / H) ∧
    ((toYoloBox 10 10 12 12 14 14).1 > 1 ∧ (toYoloBox 10 10 12 12 14 14).2.1 > 1) := by
  refine ⟨?_, fun W H x1 y1 x2 y2 => ⟨rfl, rfl⟩, ?_⟩
  · intro W H x1 y1 x2 y2 hW hH hx1 hx1W hx2 hx2W hy1 hy1H hy2 hy2H
    simp only [toYoloBox]
    constructor
    · constructor
      · exact div_nonneg (div_nonneg (by linarith) (by norm_num)) hW.le
      · rw [div_le_one hW]
        linarith
    · constructor
      · exact div_nonneg (div_nonneg (by linarith) (by norm_num)) hH.le
      · rw [div_le_one hH]
        linarith
  · constructor <;> norm_num [toYoloBox]

/-- Witness for C8 at a concrete in-range input. -/
theorem c8_center_bounds_unclamped_witness :
    0 ≤ (toYoloBox 100 50 10 20 30 40).1 ∧ (toYoloBox 100 50 10 20 30 40).1 ≤ 1 :=
  (c8_center_bounds_unclamped.1 100 50 10 20 30 40 (by norm_num) (by norm_num)
    (by norm_num) (by norm_num) (by norm_num) (by norm_num)
    (by norm_num) (by norm_num) (by norm_num) (by norm_num)).1

/-- Claim C2: the class mapping is a bijection from the distinct
non-empty trimmed rectangle labels onto `0..N-1` in lexicographic
order, and is invariant under reordering of the scanned pairs.
Concretely: the mapping keys are the sorted distinct labels (strictly
sorted, hence no duplicates and lexicographically ordered), a label is
a key iff it was collected, the values are exactly `0, 1, ..., N-1` in
that order, and scanning any permutation of the pair list yields the
identical mapping. -/
theorem c2_class_mapping (pairs pairs2 : List PairInput) (hperm : pairs.Perm pairs2) :
    (classMapping pairs).map Prod.fst = sortedClasses pairs ∧
    List.Sorted (· < ·) (sortedClasses pairs) ∧
    (∀ lab, lab ∈ sortedClasses pairs ↔ lab ∈ pairs.flatMap pairLabels) ∧
    (classMapping pairs).map Prod.snd = List.range (sortedClasses pairs).length ∧
    classMapping pairs = classMapping pairs2 := by
  refine ⟨indexedFrom_map_fst _ 0, ?_, ?_, ?_, ?_⟩
  · apply List.Sorted.lt_of_le (List.sorted_insertionSort _ _)
    exact ((List.perm_insertionSort _ _).nodup_iff).mpr (List.nodup_dedup _)
  · intro lab
    rw [sortedClasses, List.mem_insertionSort, collectClasses, List.mem_dedup]
  · rw [classMapping, indexedFrom_map_snd, List.range_eq_range']
  · have hc : (collectClasses pairs).Perm (collectClasses pairs2) :=
      (hperm.flatMap_right pairLabels).dedup
    unfold classMapping sortedClasses
    rw [insertionSort_eq_of_perm hc]

/-- Witness for C2: two concrete pairs scanned in both orders. -/
theorem c2_class_mapping_witness :
    classMapping
        [⟨"a.jpg", "a.json", some ⟨some 10, some 10,
            some [⟨"rectangle", "dog", [(1, 1), (2, 2)]⟩]⟩, false, false⟩,
         ⟨"b.jpg", "b.json", some ⟨some 10, some 10,
            some [⟨"rectangle", "cat", [(1, 1), (2, 2)]⟩]⟩, false, false⟩] =
      classMapping
        [⟨"b.jpg", "b.json", some ⟨some 10, some 10,
            some [⟨"rectangle", "cat", [(1, 1), (2, 2)]⟩]⟩, false, false⟩,
         ⟨"a.jpg", "a.json", some ⟨some 10, some 10,
            some [⟨"rectangle", "dog", [(1, 1), (2, 2)]⟩]⟩, false, false⟩] :=
  (c2_class_mapping _ _ (List.Perm.swap _ _ _)).2.2.2.2

/-- Claim C3: for every pair list, every shuffled order of it, and every
ratio `r ∈ (0,1)`, the split `(train, val)` satisfies: `train ++ val`
is a permutation of the pairs, `|train| + |val| = n`, and
`|train| = ⌊r·n⌋`; and when the pairs are distinct, each pair lies in
exactly one of the two subsets. -/
theorem c3_split_partition (pairs shuffled : List PairInput) (r : ℚ)
    (h0 : 0 < r) (h1 : r < 1) (hperm : pairs.Perm shuffled) :
    ((splitTrainVal shuffled r).1 ++ (splitTrainVal shuffled r).2).Perm pairs ∧
    (splitTrainVal shuffled r).1.length + (splitTrainVal shuffled r).2.length =
      pairs.length ∧
    (splitTrainVal shuffled r).1.length = (⌊r * (pairs.length : ℚ)⌋).toNat ∧
    (pairs.Nodup → ∀ p ∈ pairs,
      (p ∈ (splitTrainVal shuffled r).1 ∧ p ∉ (splitTrainVal shuffled r).2) ∨
      (p ∈ (splitTrainVal shuffled r).2 ∧ p ∉ (splitTrainVal shuffled r).1)) := by
  have happ : (splitTrainVal shuffled r).1 ++ (splitTrainVal shuffled r).2 = shuffled := by
    simp [splitTrainVal]
  have hlen : shuffled.length = pairs.length := hperm.length_eq.symm
  have hidx : (⌊r * (shuffled.length : ℚ)⌋).toNat ≤ shuffled.length := by
    rcases Nat.eq_zero_or_pos shuffled.length with h | h
    · simp [h]
    · have hlt : r * (shuffled.length : ℚ) < (shuffled.length : ℚ) := by
        have : (0 : ℚ) < (shuffled.length : ℚ) := by exact_mod_cast h
        nlinarith
      have hfl : ⌊r * (shuffled.length : ℚ)⌋ < (shuffled.length : ℤ) := by
        have := Int.floor_le (r * (shuffled.length : ℚ))
        have : (⌊r * (shuffled.length : ℚ)⌋ : ℚ) < (shuffled.length : ℚ) := by linarith
        exact_mod_cast this
      omega
  have hlen1 : (splitTrainVal shuffled r).1.length =
      (⌊r * (shuffled.length : ℚ)⌋).toNat := by
    simp [splitTrainVal]
    omega
  refine ⟨by rw [happ]; exact hperm.symm, ?_, ?_, ?_⟩
  · have := congrArg List.length happ
    simpa using this.trans hlen
  · rw [hlen1, hlen]
  · intro hnd p hp
    have hnd2 : shuffled.Nodup := (hperm.nodup_iff).mp hnd
    have hmem : p ∈ shuffled := hperm.mem_iff.mp hp
    rw [← happ] at hnd2 hmem
    rcases List.mem_append.mp hmem with h | h
    · exact Or.inl ⟨h, fun h2 => (List.disjoint_of_nodup_append hnd2) h h2⟩
    · exact Or.inr ⟨h, fun h2 => (List.disjoint_of_nodup_append hnd2) h2 h⟩

/-- The `PairResult` part of the shape loop does not depend on the
counter accumulator. -/
theorem processShapes_fst_indep (m : List (String × Nat)) (W H : ℚ) :
    ∀ shapes lines cnt cc cc',
      (processShapes m W H shapes lines cnt cc).1 =
        (processShapes m W H shapes lines cnt cc').1 := by
  intro shapes
  induction shapes with
  | nil => intro lines cnt cc cc'; rfl
  | cons s rest ih =>
    intro lines cnt cc cc'
    simp only [processShapes]
    by_cases h1 : s.shape_type = "rectangle"
    · simp only [if_pos h1]
      cases hm : mapLookup m (stripStr s.label) with
      | none => exact ih _ _ _ _
      | some cid =>
        cases hp : s.points with
        | nil => rfl
        | cons p1 tail =>
          cases tail with
          | nil => obtain ⟨x1, y1⟩ := p1; rfl
          | cons p2 tail2 =>
            obtain ⟨x1, y1⟩ := p1
            obtain ⟨x2, y2⟩ := p2
            exact ih _ _ _ _
    · simp only [if_neg h1]
      exact ih _ _ _ _

/-- A successful shape loop only appends formatted annotation lines to
its accumulator, one per counted annotation. -/
theorem processShapes_success_spec (m : List (String × Nat)) (W H : ℚ) :
    ∀ shapes lines cnt cc ls n cc2,
      processShapes m W H shapes lines cnt cc = (some (ls, n), cc2) →
      ∃ new, ls = lines ++ new ∧ n = cnt + new.length ∧
        ∀ l ∈ new, ∃ cid cx cy w h, l = yoloLine cid cx cy w h := by
  intro shapes
  induction shapes with
  | nil =>
    intro lines cnt cc ls n cc2 h
    simp only [processShapes, Prod.mk.injEq, Option.some.injEq] at h
    obtain ⟨⟨rfl, rfl⟩, rfl⟩ := h
    exact ⟨[], by simp⟩
  | cons s rest ih =>
    intro lines cnt cc ls n cc2 h
    simp only [processShapes] at h
    by_cases h1 : s.shape_type = "rectangle"
    · rw [if_pos h1] at h
      cases hm : mapLookup m (stripStr s.label) with
      | none =>
        rw [hm] at h
        exact ih _ _ _ _ _ _ h
      | some cid =>
        rw [hm] at h
        cases hp : s.points with
        | nil => rw [hp] at h; simp at h
        | cons p1 tail =>
          obtain ⟨x1, y1⟩ := p1
          cases tail with
          | nil => rw [hp] at h; simp at h
          | cons p2 tail2 =>
            obtain ⟨x2, y2⟩ := p2
            rw [hp] at h
            obtain ⟨new, hls, hn, hall⟩ := ih _ _ _ _ _ _ h
            refine ⟨(yoloLine cid (toYoloBox W H x1 y1 x2 y2).1
                (toYoloBox W H x1 y1 x2 y2).2.1 (toYoloBox W H x1 y1 x2 y2).2.2.1
                (toYoloBox W H x1 y1 x2 y2).2.2.2) :: new, ?_, ?_, ?_⟩
            · rw [hls, List.append_assoc, List.singleton_append]
            · rw [hn]; simp; omega
            · intro l hl
              rcases List.mem_cons.mp hl with h2 | h2
              · exact ⟨cid, _, _, _, _, h2⟩
              · exact hall l h2
    · rw [if_neg h1] at h
      exact ih _ _ _ _ _ _ h

/-- With an empty class mapping the shape loop leaves every accumulator
unchanged and never fails. -/
theorem processShapes_nil_map (W H : ℚ) :
    ∀ shapes lines cnt cc,
      processShapes [] W H shapes lines cnt cc = (some (lines, cnt), cc) := by
  intro shapes
  induction shapes with
  | nil => intro lines cnt cc; rfl
  | cons s rest ih =>
    intro lines cnt cc
    simp only [processShapes]
    by_cases h1 : s.shape_type = "rectangle"
    · rw [if_pos h1]
      exact ih _ _ _
    · rw [if_neg h1]
      exact ih _ _ _

/-- The `PairResult` of one pair does not depend on the counter
accumulator passed in. -/
theorem convertSinglePair_fst (m : List (String × Nat)) (ci : Bool) (p : PairInput)
    (cc : List (String × Nat)) :
    (convertSinglePair m ci p cc).1 = pairOutcome m ci p := by
  cases hp : p.parsed with
  | none => simp [pairOutcome, convertSinglePair, hp]
  | some raw =>
    cases hw : raw.imageWidth with
    | none => simp [pairOutcome, convertSinglePair, hp, hw]
    | some W =>
      cases hh : raw.imageHeight with
      | none => simp [pairOutcome, convertSinglePair, hp, hw, hh]
      | some H =>
        have hind := processShapes_fst_indep m W H (raw.shapes.getD []) [] 0 cc []
        cases h1 : processShapes m W H (raw.shapes.getD []) [] 0 cc with
        | mk o1 cc1 =>
          cases h2 : processShapes m W H (raw.shapes.getD []) [] 0 [] with
          | mk o2 cc2 =>
            rw [h1, h2] at hind
            simp only at hind
            subst hind
            simp only [pairOutcome, convertSinglePair, hp, hw, hh, h1, h2]
            cases o1 with
            | none => rfl
            | some v =>
              obtain ⟨lines, cnt⟩ := v
              by_cases hc : (ci && p.copyFail) = true
              · simp [hc]
              · by_cases hwf : p.writeFail = true
                · simp [hc, hwf]
                · simp [hc, hwf]

/-- Witness for C3: three concrete pairs, ratio 4/5, a concrete shuffle. -/
theorem c3_split_partition_witness :
    (((splitTrainVal
        [⟨"b.jpg", "b.json", none, false, false⟩,
         ⟨"a.jpg", "a.json", none, false, false⟩,
         ⟨"c.jpg", "c.json", none, false, false⟩] (4/5)).1 ++
      (splitTrainVal
        [⟨"b.jpg", "b.json", none, false, false⟩,
         ⟨"a.jpg", "a.json", none, false, false⟩,
         ⟨"c.jpg", "c.json", none, false, false⟩] (4/5)).2).Perm
        [⟨"a.jpg", "a.json", none, false, false⟩,
         ⟨"b.jpg", "b.json", none, false, false⟩,
         ⟨"c.jpg", "c.json", none, false, false⟩]) ∧
    (splitTrainVal
        [⟨"b.jpg", "b.json", none, false, false⟩,
         ⟨"a.jpg", "a.json", none, false, false⟩,
         ⟨"c.jpg", "c.json", none, false, false⟩] (4/5)).1.length =
      (⌊(4/5 : ℚ) * ((3 : Nat) : ℚ)⌋).toNat := by
  have h := c3_split_partition
    [⟨"a.jpg", "a.json", none, false, false⟩,
     ⟨"b.jpg", "b.json", none, false, false⟩,
     ⟨"c.jpg", "c.json", none, false, false⟩]
    [⟨"b.jpg", "b.json", none, false, false⟩,
     ⟨"a.jpg", "a.json", none, false, false⟩,
     ⟨"c.jpg", "c.json", none, false, false⟩]
    (4/5) (by norm_num) (by norm_num) (by decide)
  exact ⟨h.1, h.2.2.1⟩


/-- Bookkeeping of `_convert_split`: every pair is either converted or
skipped, the error list holds exactly the failed pairs' messages in
order, and the annotation total sums the successful pairs' counts. -/
theorem convertSplit_spec (m : List (String × Nat)) (ci : Bool) (sp : String) :
    ∀ ps cc,
      (convertSplit m ci sp ps cc).1.converted + (convertSplit m ci sp ps cc).1.skipped =
        ps.length ∧
      (convertSplit m ci sp ps cc).1.errors = ps.filterMap (failMsg m ci) ∧
      (convertSplit m ci sp ps cc).1.errors.length = (convertSplit m ci sp ps cc).1.skipped ∧
      (convertSplit m ci sp ps cc).1.anns =
        (ps.map (fun p => if (pairOutcome m ci p).success then (pairOutcome m ci p).annCount
          else 0)).sum := by
  intro ps
  induction ps with
  | nil => intro cc; exact ⟨rfl, rfl, rfl, rfl⟩
  | cons p rest ih =>
    intro cc
    obtain ⟨ih1, ih2, ih3, ih4⟩ := ih (convertSinglePair m ci p cc).2
    by_cases hs : (pairOutcome m ci p).success = true
    · simp only [convertSplit, convertSinglePair_fst m ci p cc, hs, if_true,
        List.filterMap_cons, List.map_cons, List.sum_cons, List.length_cons, failMsg,
        if_pos hs]
      refine ⟨by omega, ih2, ih3, by rw [ih4]; omega⟩
    · have hs' : (pairOutcome m ci p).success = false := by
        cases h : (pairOutcome m ci p).success
        · rfl
        · exact absurd h hs
      simp only [convertSplit, convertSinglePair_fst m ci p cc, hs', Bool.false_eq_true,
        if_false, List.filterMap_cons, List.map_cons, List.sum_cons, List.length_cons,
        failMsg]
      refine ⟨by omega, by rw [ih2], by simp [ih3], by rw [ih4]; simp [hs']⟩

/-- With an empty class mapping no pair produces any annotation. -/
theorem pairOutcome_nil_map (ci : Bool) (p : PairInput) :
    (pairOutcome [] ci p).annCount = 0 := by
  cases hp : p.parsed with
  | none => simp [pairOutcome, convertSinglePair, hp]
  | some raw =>
    cases hw : raw.imageWidth with
    | none => simp [pairOutcome, convertSinglePair, hp, hw]
    | some W =>
      cases hh : raw.imageHeight with
      | none => simp [pairOutcome, convertSinglePair, hp, hw, hh]
      | some H =>
        simp only [pairOutcome, convertSinglePair, hp, hw, hh,
          processShapes_nil_map W H (raw.shapes.getD []) [] 0 []]
        by_cases hc : (ci && p.copyFail) = true
        · simp [hc]
        · by_cases hwf : p.writeFail = true
          · simp [hc, hwf]
          · simp [hc, hwf]


/-- Claim C7: whenever at least one required item (`images/train`,
`images/val`, `labels/train`, `labels/val`, `dataset.yaml`) is missing
from the output folder, the validator returns `valid = false` with
exactly one error per missing item, each naming that item, skips
statistics collection, and communicates everything through the returned
structure (the embedding is a total function, mirroring that the source
never raises here). -/
theorem c7_validator_missing_items (ex : String → Bool) (cnt : String → Nat)
    (h : ∃ i ∈ requiredItems, ex i = false) :
    (validateYoloDataset ex cnt).valid = false ∧
    (validateYoloDataset ex cnt).errors =
      (requiredItems.filter (fun i => !(ex i))).map
        (fun i => "必須項目が見つかりません: " ++ i) ∧
    (validateYoloDataset ex cnt).errors.length =
      (requiredItems.filter (fun i => !(ex i))).length ∧
    (∀ i ∈ requiredItems, ex i = false →
      ("必須項目が見つかりません: " ++ i) ∈ (validateYoloDataset ex cnt).errors) ∧
    (validateYoloDataset ex cnt).stats = [] ∧
    (validateYoloDataset ex cnt).warnings = [] := by
  obtain ⟨i, hi, hfalse⟩ := h
  have hmem : i ∈ requiredItems.filter (fun i => !(ex i)) :=
    List.mem_filter.mpr ⟨hi, by simp [hfalse]⟩
  have hne : (requiredItems.filter (fun i => !(ex i))).isEmpty = false := by
    cases hl : requiredItems.filter (fun i => !(ex i)) with
    | nil => rw [hl] at hmem; exact absurd hmem (List.not_mem_nil i)
    | cons a as => rfl
  simp only [validateYoloDataset, hne, Bool.false_eq_true, if_false]
  refine ⟨trivial, trivial, by rw [List.length_map], ?_, trivial, trivial⟩
  intro j hj hjf
  exact List.mem_map.mpr ⟨j, List.mem_filter.mpr ⟨hj, by simp [hjf]⟩, rfl⟩

/-- Witness for C7: a tree missing exactly `labels/val`. -/
theorem c7_validator_missing_items_witness :
    (validateYoloDataset (fun s => !(s == "labels/val")) (fun _ => 0)).valid = false ∧
    (validateYoloDataset (fun s => !(s == "labels/val")) (fun _ => 0)).errors =
      ["必須項目が見つかりません: labels/val"] ∧
    (validateYoloDataset (fun s => !(s == "labels/val")) (fun _ => 0)).stats = [] := by
  have h := c7_validator_missing_items (fun s => !(s == "labels/val")) (fun _ => 0)
    ⟨"labels/val", by decide, by decide⟩
  exact ⟨h.1, h.2.1.trans (by rfl), h.2.2.2.2.1⟩


/-- Claim C4: for every successfully processed pair the label file
written at `labels/<split>/<stem>.txt` holds exactly one
newline-terminated line per converted annotation, each in the
`"<class_id> <cx> <cy> <w> <h>"` six-decimal format, and no error is
reported; in particular a pair whose annotation has an empty `shapes`
array succeeds with an empty label file (zero lines), annotation count
0, and no error recorded. -/
theorem c4_label_file_per_pair (m : List (String × Nat)) (ci : Bool) (sp : String)
    (p : PairInput) (cc : List (String × Nat)) :
    ((convertSinglePair m ci p cc).1.success = true →
      ∃ ls, (convertSinglePair m ci p cc).1.labelLines = some ls ∧
        ls.length = (convertSinglePair m ci p cc).1.annCount ∧
        (∀ l ∈ ls, ∃ cid cx cy w h, l = yoloLine cid cx cy w h) ∧
        (convertSplit m ci sp [p] cc).2.2 =
          [(labelPath sp p.img, labelFileContent ls)] ∧
        (convertSinglePair m ci p cc).1.errMsg = none) ∧
    (∀ W H, p.parsed = some ⟨some W, some H, some []⟩ → (ci && p.copyFail) = false →
      p.writeFail = false →
      convertSinglePair m ci p cc = (⟨true, 0, none, some []⟩, cc) ∧
      (convertSplit m ci sp [p] cc).2.2 = [(labelPath sp p.img, "")] ∧
      (convertSplit m ci sp [p] cc).1 = ⟨1, 0, 0, []⟩) := by
  constructor
  · intro hsucc
    cases hp : p.parsed with
    | none => simp [convertSinglePair, hp] at hsucc
    | some raw =>
      cases hw : raw.imageWidth with
      | none => simp [convertSinglePair, hp, hw] at hsucc
      | some W =>
        cases hh : raw.imageHeight with
        | none => simp [convertSinglePair, hp, hw, hh] at hsucc
        | some H =>
          cases hps : processShapes m W H (raw.shapes.getD []) [] 0 cc with
          | mk o cc2 =>
            cases o with
            | none => simp [convertSinglePair, hp, hw, hh, hps] at hsucc
            | some v =>
              obtain ⟨lines, cnt⟩ := v
              by_cases hc : (ci && p.copyFail) = true
              · simp [convertSinglePair, hp, hw, hh, hps, hc] at hsucc
              · by_cases hwf : p.writeFail = true
                · simp [convertSinglePair, hp, hw, hh, hps, hc, hwf] at hsucc
                · have heq : convertSinglePair m ci p cc =
                      (⟨true, cnt, none, some lines⟩, cc2) := by
                    simp [convertSinglePair, hp, hw, hh, hps, hc, hwf]
                  obtain ⟨new, hnew, hlen, hall⟩ :=
                    processShapes_success_spec m W H _ _ _ _ _ _ _ hps
                  rw [heq]
                  refine ⟨lines, rfl, ?_, ?_, ?_, rfl⟩
                  · rw [hnew, hlen]
                    simp
                  · intro l hl
                    apply hall
                    rw [hnew] at hl
                    simpa using hl
                  · simp [convertSplit, heq]
  · intro W H hp hc hwf
    have heq : convertSinglePair m ci p cc = (⟨true, 0, none, some []⟩, cc) := by
      simp [convertSinglePair, hp, hc, hwf, processShapes]
    refine ⟨heq, ?_, ?_⟩
    · simp [convertSplit, heq, labelFileContent, String.join]
    · simp [convertSplit, heq]

/-- Witness for C4 at a pair with an empty shapes array. -/
theorem c4_label_file_per_pair_witness :
    convertSinglePair [] false emptyShapesPair [] = (⟨true, 0, none, some []⟩, []) ∧
    (convertSplit [] false "val" [emptyShapesPair] []).2.2 =
      [(labelPath "val" "e.jpg", "")] := by
  have h := (c4_label_file_per_pair [] false "val" emptyShapesPair []).2 10 10 rfl rfl rfl
  exact ⟨h.1, h.2.1⟩


/-- Claim C9: the per-class counters are bumped by the shape loop before
the image copy and the label write, so a pair whose copy or write fails
is skipped while its counter increments are retained (the counters
after the failed pair equal those after a fully successful conversion
of the same pair); consequently the per-class totals can exceed the
annotation total of the successfully converted pairs, as in the
one-pair run whose write fails: per-class counts sum to 1 while the
summary's annotation total is 0. -/
theorem c9_class_counts_retained (m : List (String × Nat)) (ci : Bool) (p : PairInput)
    (cc : List (String × Nat)) (raw : RawFile) (W H : ℚ) (lines : List String) (cnt : Nat)
    (cc2 : List (String × Nat))
    (hp : p.parsed = some raw) (hw : raw.imageWidth = some W)
    (hh : raw.imageHeight = some H)
    (hps : processShapes m W H (raw.shapes.getD []) [] 0 cc = (some (lines, cnt), cc2))
    (hfail : ((ci && p.copyFail) || p.writeFail) = true) :
    ((convertSinglePair m ci p cc).1.success = false ∧
      (convertSinglePair m ci p cc).2 = cc2 ∧
      convertSinglePair m ci ⟨p.img, p.jsonName, p.parsed, false, false⟩ cc =
        (⟨true, cnt, none, some lines⟩, cc2)) ∧
    (∃ s ws, convertDataset true [writeFailPair] [writeFailPair] (1/2) true = .ok (s, ws) ∧
      s.totalAnns < countsTotal s.classCounts) := by
  constructor
  · have hok : convertSinglePair m ci ⟨p.img, p.jsonName, p.parsed, false, false⟩ cc =
        (⟨true, cnt, none, some lines⟩, cc2) := by
      simp [convertSinglePair, hp, hw, hh, hps]
    by_cases hc : (ci && p.copyFail) = true
    · have : convertSinglePair m ci p cc =
          (⟨false, 0, some (p.img ++ ": copy failed"), none⟩, cc2) := by
        simp [convertSinglePair, hp, hw, hh, hps, hc]
      rw [this]
      exact ⟨rfl, rfl, hok⟩
    · have hwf : p.writeFail = true := by
        rcases Bool.or_eq_true_iff.mp hfail with h | h
        · exact absurd h hc
        · exact h
      have : convertSinglePair m ci p cc =
          (⟨false, 0, some (p.img ++ ": write failed"), none⟩, cc2) := by
        simp [convertSinglePair, hp, hw, hh, hps, hc, hwf]
      rw [this]
      exact ⟨rfl, rfl, hok⟩
  · refine ⟨⟨0, 1, 0, 0, 0, 1, [("dog", 1)], [("dog", 0)], ["a.jpg: write failed"]⟩, [],
      ?_, by norm_num [countsTotal]⟩
    norm_num [convertDataset, splitTrainVal, convertSplit, convertSinglePair, processShapes,
      classMapping, sortedClasses, collectClasses, pairLabels, trimmedLabels, stripStr,
      indexedFrom, mapLookup, bump, writeFailPair, List.insertionSort, List.orderedInsert,
      List.dedup, List.find?]
    exact ⟨rfl, rfl⟩


/-- Witness for C9 at a concrete failing write. -/
theorem c9_class_counts_retained_witness :
    (convertSinglePair [] false emptyWriteFailPair []).1.success = false ∧
    (convertSinglePair [] false emptyWriteFailPair []).2 = [] ∧
    convertSinglePair [] false ⟨"e.jpg", "e.json", emptyWriteFailPair.parsed, false, false⟩ []
      = (⟨true, 0, none, some []⟩, []) := by
  have h := c9_class_counts_retained [] false emptyWriteFailPair []
    ⟨some 10, some 10, some []⟩ 10 10 [] 0 [] rfl rfl rfl rfl rfl
  exact h.1

/-- Counterexample to C5: a run over one pair whose annotation file
parses but yields no labelled rectangle has an empty class vocabulary,
yet the conversion entry point returns a success summary (with zero
classes) instead of aborting with a structural error. -/
theorem c5_counterexample :
    collectClasses [emptyShapesPair] = [] ∧
    convertDataset true [emptyShapesPair] [emptyShapesPair] (1/2) false =
      .ok (⟨1, 0, 0, 0, 1, 0, [], [], []⟩, [("labels/val/e.txt", "")]) := by
  refine ⟨rfl, ?_⟩
  norm_num [convertDataset, splitTrainVal, convertSplit, convertSinglePair, processShapes,
    classMapping, sortedClasses, collectClasses, pairLabels, trimmedLabels, indexedFrom,
    emptyShapesPair, labelPath, stemOf, labelFileContent, String.join]
  rfl

/-- Claim C5, amended: the code performs no empty-vocabulary check, so
a run whose class vocabulary is empty after scanning does NOT abort:
the conversion entry point returns a success summary with zero
classes, an empty class mapping, and zero converted annotations (every
rectangle shape misses the empty mapping).  Only a missing input
folder and an empty pair list abort the run. -/
theorem c5_empty_vocabulary_no_abort (pairs shuffled : List PairInput) (r : ℚ) (ci : Bool)
    (hne : pairs ≠ []) (hempty : collectClasses pairs = []) :
    ∃ s ws, convertDataset true pairs shuffled r ci = .ok (s, ws) ∧
      s.numClasses = 0 ∧ s.mapping = [] ∧ s.totalAnns = 0 := by
  have hmap : classMapping pairs = [] := by
    unfold classMapping sortedClasses
    rw [hempty]
    rfl
  have hanns : ∀ sp ps cc, (convertSplit [] ci sp ps cc).1.anns = 0 := by
    intro sp ps cc
    rw [(convertSplit_spec [] ci sp ps cc).2.2.2]
    apply List.sum_eq_zero
    intro x hx
    obtain ⟨p, hp, rfl⟩ := List.mem_map.mp hx
    rw [pairOutcome_nil_map]
    simp
  obtain ⟨a, as, rfl⟩ : ∃ a as, pairs = a :: as := by
    cases pairs with
    | nil => exact absurd rfl hne
    | cons a as => exact ⟨a, as, rfl⟩
  refine ⟨_, _, rfl, ?_, ?_, ?_⟩
  · simp [hmap, indexedFrom]
  · simp [hmap]
  · simp only [hmap, hanns]

/-- Counterexample to C6: in a run containing a malformed annotation
file, the error recorded by the class-collection scan (prefixed
`クラス情報収集エラー`) is dropped from the summary: the summary's error
list holds only the conversion-phase message for that pair. -/
theorem c6_counterexample :
    collectErrs [badJsonPair, dogPair] =
      ["クラス情報収集エラー b.json: json parse error"] ∧
    (convertDataset true [badJsonPair, dogPair] [badJsonPair, dogPair]
        (1/2) false).toOption.map (fun x => x.1.errors) =
      some ["b.jpg: json parse error"] ∧
    "クラス情報収集エラー b.json: json parse error" ∉ ["b.jpg: json parse error"] := by
  refine ⟨rfl, ?_, by decide⟩
  norm_num [convertDataset, splitTrainVal, convertSplit, convertSinglePair, processShapes,
    classMapping, sortedClasses, collectClasses, pairLabels, trimmedLabels, stripStr,
    indexedFrom, mapLookup, bump, badJsonPair, dogPair, List.insertionSort,
    List.orderedInsert, List.dedup, List.find?]
  exact ⟨_, ⟨_, rfl⟩, rfl⟩

/-- Claim C6, amended: per-file failures during the conversion phase
(JSON that fails to parse or lacks required keys, image-copy failure,
label-write failure) never abort the run: the entry point still
returns a summary, every pair is either converted or skipped, the
summary's error list holds exactly one message per skipped pair
(including that pair's message), and all remaining pairs are
processed.  Errors recorded during the class-collection scan, however,
are kept only in the internal stats list and are omitted from the
summary's error list (the affected pair fails again during conversion,
and it is that second message which appears). -/
theorem c6_per_file_errors_summary (pairs shuffled : List PairInput) (r : ℚ) (ci : Bool)
    (hne : pairs ≠ []) :
    ∃ s ws, convertDataset true pairs shuffled r ci = .ok (s, ws) ∧
      s.converted + s.skipped = shuffled.length ∧
      s.errors.length = s.skipped ∧
      s.errors = shuffled.filterMap (failMsg (classMapping pairs) ci) ∧
      (∀ p ∈ shuffled, (pairOutcome (classMapping pairs) ci p).success = false →
        ((pairOutcome (classMapping pairs) ci p).errMsg.getD "") ∈ s.errors) := by
  have happ : (splitTrainVal shuffled r).1 ++ (splitTrainVal shuffled r).2 = shuffled := by
    simp [splitTrainVal]
  obtain ⟨a, as, rfl⟩ : ∃ a as, pairs = a :: as := by
    cases pairs with
    | nil => exact absurd rfl hne
    | cons a as => exact ⟨a, as, rfl⟩
  have ht := convertSplit_spec (classMapping (a :: as)) ci "train"
    (splitTrainVal shuffled r).1 []
  have hv := convertSplit_spec (classMapping (a :: as)) ci "val"
    (splitTrainVal shuffled r).2
    (convertSplit (classMapping (a :: as)) ci "train" (splitTrainVal shuffled r).1 []).2.1
  have hlen : (splitTrainVal shuffled r).1.length + (splitTrainVal shuffled r).2.length =
      shuffled.length := by
    rw [← List.length_append, happ]
  refine ⟨_, _, rfl, ?_, ?_, ?_, ?_⟩
  · have h1 := ht.1
    have h2 := hv.1
    simp only at h1 h2 ⊢
    omega
  · simp only [List.length_append, ht.2.2.1, hv.2.2.1]
  · rw [ht.2.1, hv.2.1, ← List.filterMap_append, happ]
  · intro p hp hf
    rw [ht.2.1, hv.2.1, ← List.filterMap_append, happ]
    exact List.mem_filterMap.mpr ⟨p, hp, by simp [failMsg, hf]⟩

/-- Witness for C6 (amended) at a concrete one-pair run. -/
theorem c6_per_file_errors_summary_witness :
    ∃ s ws, convertDataset true [badJsonPair] [badJsonPair] (1/2) false = .ok (s, ws) ∧
      s.converted + s.skipped = 1 ∧
      s.errors.length = s.skipped ∧
      s.errors = [badJsonPair].filterMap (failMsg (classMapping [badJsonPair]) false) ∧
      (∀ p ∈ [badJsonPair], (pairOutcome (classMapping [badJsonPair]) false p).success = false →
        ((pairOutcome (classMapping [badJsonPair]) false p).errMsg.getD "") ∈ s.errors) :=
  c6_per_file_errors_summary [badJsonPair] [badJsonPair] (1/2) false (by simp)


/-- Witness for C5 (amended) at a concrete one-pair run. -/
theorem c5_empty_vocabulary_no_abort_witness :
    ∃ s ws, convertDataset true [emptyShapesPair] [emptyShapesPair] (1/2) false =
      .ok (s, ws) ∧ s.numClasses = 0 ∧ s.mapping = [] ∧ s.totalAnns = 0 :=
  c5_empty_vocabulary_no_abort [emptyShapesPair] [emptyShapesPair] (1/2) false
    (by simp) rfl

/-- Claim C10: an input listing with two image files sharing one stem
(`a.jpg`, `a.png`) and a single `a.json` yields two distinct pairs that
reference the same annotation file; both pairs' label outputs target
the identical path `labels/<split>/a.txt`, so converting both in the
same split writes that path twice — the later write overwrites the
earlier one in the resulting file store — while both pairs are counted
as converted. -/
theorem c10_shared_stem_pairs :
    getImageJsonPairs ["a.jpg", "a.png", "a.json"] =
      [("a.jpg", "a.json"), ("a.png", "a.json")] ∧
    ("a.jpg", "a.json") ≠ (("a.png", "a.json") : String × String) ∧
    labelPath "train" "a.jpg" = labelPath "train" "a.png" ∧
    ∃ c, (convertSplit [("dog", 0)] true "train" [dogPair, dogPairPng] []).2.2 =
        [("labels/train/a.txt", c), ("labels/train/a.txt", c)] ∧
      applyWrites ((convertSplit [("dog", 0)] true "train" [dogPair, dogPairPng] []).2.2) =
        [("labels/train/a.txt", c)] ∧
      (convertSplit [("dog", 0)] true "train" [dogPair, dogPairPng] []).1.converted = 2 := by
  refine ⟨rfl, by decide, rfl, ⟨_, rfl, ?_, rfl⟩⟩
  rfl

end YoloConv
